import Mathlib

/-!
Shallow embedding of the RTE zone-checker (`src/rte_zones.py`): zone loading
and validation (`RTEZoneChecker.load_data`), point-in-zone queries
(`point_in_zones`), restaurant grouping (`get_restaurants_for_point`),
city enrichment (`add_city_column`, `get_city_from_coordinates`) and
statistics (`get_stats`).  Coordinates are idealised as rationals; the
external collaborators (the WKT parser, the geocoding HTTP service) are
passed in as explicit function / response parameters.
-/

namespace RTE

/-- An attribute cell of the tabular source: a string, a number, or a
null/NaN cell (pandas `None`/`NaN`). -/
inductive Value where
  | str (s : String)
  | num (n : Int)
  | null
deriving DecidableEq, Repr

/-- A planar point; shapely's `Point(x, y)`. -/
structure Pt where
  x : ℚ
  y : ℚ
deriving DecidableEq, Repr

/-- A polygon geometry, given by its ring of vertices (consecutive vertices
are joined by edges, the last vertex joins back to the first). -/
structure Polygon where
  ring : List Pt
deriving DecidableEq, Repr

/-- One raw row of the tabular source: the `WKT` cell (`none` models a
missing/NaN cell, i.e. `pd.notna` is false) plus all other columns. -/
structure RawRow where
  wkt : Option String
  attrs : List (String × Value)
deriving DecidableEq, Repr

/-- A validated zone of the store (`self.gdf` row): `id` is the original
row position (`idx` of `valid_indices`), `geometry` the parsed polygon,
`attrs` the other columns carried over verbatim. -/
structure ZoneRecord where
  id : Nat
  geometry : Polygon
  attrs : List (String × Value)
deriving DecidableEq, Repr

/-- The checker object's geometry state: `gdf = none` models a
never-loaded store (`self.gdf is None`). -/
structure RTEZoneChecker where
  gdf : Option (List ZoneRecord)

/-- 2-D cross product of the vectors `a→b` and `a→p`. -/
def cross (a b p : Pt) : ℚ :=
  (b.x - a.x) * (p.y - a.y) - (b.y - a.y) * (p.x - a.x)

/-- `p` lies on the closed segment from `a` to `b`: collinear with it and
within its coordinate ranges (each range test written division-free as a
sign condition on the product of the coordinate differences). -/
def onSegment (p a b : Pt) : Bool :=
  decide (cross a b p = 0) &&
  decide ((a.x - p.x) * (b.x - p.x) ≤ 0) &&
  decide ((a.y - p.y) * (b.y - p.y) ≤ 0)

/-- The edge list of a ring: consecutive vertices, wrapping around. -/
def edgesOf (ring : List Pt) : List (Pt × Pt) :=
  ring.zip (ring.drop 1 ++ ring.take 1)

/-- `p` lies on the boundary of the ring. -/
def onRing (p : Pt) (ring : List Pt) : Bool :=
  (edgesOf ring).any (fun e => onSegment p e.1 e.2)

/-- The horizontal ray from `p` towards `x = +∞` crosses the edge `a→b`
(half-open rule in `y`, division-free form of the intersection test). -/
def edgeCrossing (p a b : Pt) : Bool :=
  (decide (a.y ≤ p.y) && decide (p.y < b.y) && decide (0 < cross a b p)) ||
  (decide (b.y ≤ p.y) && decide (p.y < a.y) && decide (cross a b p < 0))

/-- Ray-casting parity: `p` is inside the region bounded by the ring
(odd number of edge crossings). -/
def rayInside (p : Pt) (ring : List Pt) : Bool :=
  ((edgesOf ring).countP (fun e => edgeCrossing p e.1 e.2)) % 2 == 1

/-- Model of shapely/GEOS `geometry.contains(point)` as called on
`src/rte_zones.py` line 91: a point is contained iff it lies in the
topological interior of the polygon — strictly inside the ring and not on
its boundary.  (GEOS `contains` requires the point to meet the interior;
a point on the boundary is NOT contained — that is what `covers` would do.) -/
def zoneContains (g : Polygon) (p : Pt) : Bool :=
  !(onRing p g.ring) && rayInside p g.ring

/-- The validation loop of `load_data` (lines 53-62), with the running
`enumerate` counter `n` made explicit: a row is kept iff its `WKT` cell is
non-null (`pd.notna`) and the parser (`shapely.wkt.loads`, passed in as
`parse`) succeeds; kept rows become `ZoneRecord`s with `id` = original
position. -/
def loadDataFrom (parse : String → Option Polygon) :
    Nat → List RawRow → List ZoneRecord
  | _, [] => []
  | n, r :: rs =>
    match r.wkt with
    | none => loadDataFrom parse (n + 1) rs
    | some w =>
      match parse w with
      | none => loadDataFrom parse (n + 1) rs
      | some g => ⟨n, g, r.attrs⟩ :: loadDataFrom parse (n + 1) rs

/-- `RTEZoneChecker.load_data`: builds the validated store (`self.gdf`)
from the raw rows (`self.df`), starting the row counter at 0. -/
def load_data (parse : String → Option Polygon) (rows : List RawRow) :
    List ZoneRecord :=
  loadDataFrom parse 0 rows

/-- `RTEZoneChecker.point_in_zones` (lines 74-105): raises
`ValueError("Данные не загружены")` when the store was never loaded;
otherwise builds `Point(lon, lat)` (note the swap) and returns every store
record whose geometry contains it, in store order. -/
def point_in_zones (c : RTEZoneChecker) (lat lon : ℚ) :
    Except String (List ZoneRecord) :=
  match c.gdf with
  | none => .error "Данные не загружены"
  | some recs =>
    .ok (recs.filter (fun z => zoneContains z.geometry (Pt.mk lon lat)))

/-- `RTEZoneChecker.is_point_in_any_zone` (lines 107-119). -/
def is_point_in_any_zone (c : RTEZoneChecker) (lat lon : ℚ) :
    Except String Bool :=
  (point_in_zones c lat lon).map (fun l => !l.isEmpty)

/-- Attribute lookup in a record's column map (`row[col]` / dict access on
the result dict built by `point_in_zones`). -/
def getAttr (attrs : List (String × Value)) (k : String) : Option Value :=
  (attrs.find? (fun p => p.1 == k)).map (fun p => p.2)

/-- `zone.get('ID реста', 'unknown')` of line 137. -/
def keyOf (z : ZoneRecord) : Value :=
  (getAttr z.attrs "ID реста").getD (Value.str "unknown")

/-- `zone.get('Партнер', 'Неизвестно')` of line 138. -/
def partnerOf (z : ZoneRecord) : Value :=
  (getAttr z.attrs "Партнер").getD (Value.str "Неизвестно")

/-- One entry of a restaurant group's zone list (lines 148-152). -/
structure ZoneEntry where
  name : Value
  internal_id : Value
  index : Nat
deriving DecidableEq, Repr

/-- The `{name, internal_id, index}` dict appended for a zone. -/
def entryOf (z : ZoneRecord) : ZoneEntry :=
  { name := (getAttr z.attrs "name").getD (Value.str "Неизвестная зона"),
    internal_id := (getAttr z.attrs "ID внутренний").getD (Value.str ""),
    index := z.id }

/-- One value of the `restaurants` dict of `get_restaurants_for_point`. -/
structure RestaurantGroup where
  restaurant_id : Value
  partner : Value
  zones : List ZoneEntry
deriving DecidableEq, Repr

/-- `restaurants[restaurant_id]['zones'].append(...)` (lines 148-152):
the group whose key matches the zone's key gains the zone's entry at the
end of its zone list; other groups are untouched. -/
def appendEntry (z : ZoneRecord) (g : RestaurantGroup) : RestaurantGroup :=
  if keyOf z == g.restaurant_id then
    { g with zones := g.zones ++ [entryOf z] }
  else g

/-- One iteration of the grouping loop (lines 136-152): the insertion-order
dict `restaurants` is modelled as a list of groups; a zone whose key is
already present appends to that group's zone list, otherwise a new group is
created at the end with the zone's partner (first-seen-wins). -/
def addZone (gs : List RestaurantGroup) (z : ZoneRecord) :
    List RestaurantGroup :=
  if gs.any (fun g => keyOf z == g.restaurant_id) then
    gs.map (appendEntry z)
  else
    gs ++ [{ restaurant_id := keyOf z, partner := partnerOf z,
             zones := [entryOf z] }]

/-- The grouping pass of `get_restaurants_for_point` (lines 132-154),
applied to the containment results in order;
`list(restaurants.values())` is the final group list. -/
def groupByRestaurant (zones : List ZoneRecord) : List RestaurantGroup :=
  zones.foldl addZone []

/-- `RTEZoneChecker.get_restaurants_for_point` (lines 121-154). -/
def get_restaurants_for_point (c : RTEZoneChecker) (lat lon : ℚ) :
    Except String (List RestaurantGroup) :=
  (point_in_zones c lat lon).map groupByRestaurant

/-- What the geocoding collaborator handed back for one request: a
transport failure / timeout (the `except` branch), or an HTTP response with
a status code and — for JSON bodies — the `address` object, modelled as an
association list of string fields. -/
inductive GeoResponse where
  | failure
  | http (status : Nat) (address : List (String × String))
deriving DecidableEq, Repr

/-- `address.get(k)`: JSON field lookup, `none` when absent. -/
def addrGet (address : List (String × String)) (k : String) :
    Option String :=
  (address.find? (fun p => p.1 == k)).map (fun p => p.2)

/-- Python's `a or b` on optional strings: `a` unless it is falsy
(`None` or the empty string), in which case `b`. -/
def pyOrS (a b : Option String) : Option String :=
  match a with
  | some s => if s = "" then b else some s
  | none => b

/-- `RTEZoneChecker.get_city_from_coordinates` (lines 156-205), as a
function of the collaborator's response: on a 200 response the city is
`address.get('city') or ... or address.get('county')` (lines 189-193);
any other status or a transport failure yields `None` (lines 199-205) —
the function never raises. -/
def get_city_from_coordinates (resp : GeoResponse) : Option String :=
  match resp with
  | .failure => none
  | .http status address =>
    if status = 200 then
      pyOrS (addrGet address "city")
        (pyOrS (addrGet address "town")
          (pyOrS (addrGet address "village")
            (pyOrS (addrGet address "municipality")
              (addrGet address "county"))))
    else none

/-- Spec-side reading of the claim on city resolution, following its words:
take the first PRESENT of the five address fields, in order. -/
def cityFirstPresent (address : List (String × String)) : Option String :=
  ["city", "town", "village", "municipality", "county"].findSome?
    (fun k => addrGet address k)

/-- First of the five address fields whose value is present AND non-empty
(Python truthiness), used to state the amended claim. -/
def firstNonEmptyCity (address : List (String × String)) : Option String :=
  ["city", "town", "village", "municipality", "county"].findSome?
    (fun k =>
      match addrGet address k with
      | some s => if s = "" then none else some s
      | none => none)

/-- Observable side effects of `add_city_column`, in order of occurrence:
an external lookup for a record (with its result), a batch checkpoint
(`self.save_data(save_file)` on line 254), the final save (line 260). -/
inductive Event where
  | lookup (id : Nat) (res : Option String)
  | checkpoint
  | finalSave
deriving DecidableEq, Repr

/-- Python truthiness of the `save_file` argument (`and save_file` on
line 253, `if save_file` on line 259): `None` and `""` are falsy. -/
def pyTruthy : Option String → Bool
  | none => false
  | some s => s != ""

/-- `pd.isna(row['city']) or row['city'] == ''` (line 245): a record is
pending when its `city` cell is null/NaN, the empty string, or the column
cell is missing altogether. -/
def isPending (z : ZoneRecord) : Bool :=
  match getAttr z.attrs "city" with
  | none => true
  | some Value.null => true
  | some (Value.str s) => s == ""
  | some (Value.num _) => false

/-- `self.gdf.at[idx, 'city'] = city` (line 247): overwrite the `city`
cell (a `None` lookup result is stored as a null cell). -/
def setCity (z : ZoneRecord) (city : Option String) : ZoneRecord :=
  { z with attrs := z.attrs.map (fun p =>
      if p.1 == "city" then
        ("city", match city with
                 | some s => Value.str s
                 | none => Value.null)
      else p) }

/-- Lines 238-239: `if 'city' not in self.gdf.columns: self.gdf['city'] =
None`.  The dataframe's column set is uniform across rows, so "the column
exists" is modelled as every record carrying a `city` cell; when it does
not exist, a null `city` cell is appended to every record. -/
def ensureCityColumn (recs : List ZoneRecord) : List ZoneRecord :=
  if recs.all (fun z => (getAttr z.attrs "city").isSome) then recs
  else recs.map (fun z => { z with attrs := z.attrs ++ [("city", Value.null)] })

/-- The enrichment loop of `add_city_column` (lines 244-255), with the
`processed` counter explicit.  A pending record triggers a lookup
(`get_city_from_geometry`, abstracted as `geocode` on the record's
geometry), the cell write, the counter increment, and — when the counter
is a multiple of `batch_size` AND `save_file` is truthy — a checkpoint.
Returns the updated records and the event trace. -/
def enrichLoop (geocode : Polygon → Option String)
    (saveFile : Option String) (batchSize : Nat) :
    Nat → List ZoneRecord → List ZoneRecord × List Event
  | _, [] => ([], [])
  | processed, z :: zs =>
    if isPending z then
      let city := geocode z.geometry
      let ck : List Event :=
        if (processed + 1) % batchSize == 0 && pyTruthy saveFile then
          [Event.checkpoint]
        else []
      let rest := enrichLoop geocode saveFile batchSize (processed + 1) zs
      (setCity z city :: rest.1, Event.lookup z.id city :: (ck ++ rest.2))
    else
      let rest := enrichLoop geocode saveFile batchSize processed zs
      (z :: rest.1, rest.2)

/-- Result of an enrichment run: the updated store and the event trace. -/
structure EnrichResult where
  store : List ZoneRecord
  events : List Event
deriving DecidableEq, Repr

/-- `RTEZoneChecker.add_city_column` (lines 224-260) on a loaded store:
ensure the `city` column, run the loop from `processed = 0`, then perform
the final save iff `save_file` is truthy (line 259). -/
def add_city_column (geocode : Polygon → Option String)
    (saveFile : Option String) (batchSize : Nat)
    (recs : List ZoneRecord) : EnrichResult :=
  let recs0 := ensureCityColumn recs
  let r := enrichLoop geocode saveFile batchSize 0 recs0
  { store := r.1,
    events := r.2 ++ (if pyTruthy saveFile then [Event.finalSave] else []) }

/-- The bare lookup trace of an enrichment pass: one lookup event per
pending record, in store order, no persistence events. -/
def pureLookups (geocode : Polygon → Option String) :
    List ZoneRecord → List Event
  | [] => []
  | z :: zs =>
    if isPending z then
      Event.lookup z.id (geocode z.geometry) :: pureLookups geocode zs
    else pureLookups geocode zs

/-- Insert a checkpoint after every `batch`-th event of a lookup trace,
`k` counting the events already emitted before this suffix. -/
def addCk (batch : Nat) : Nat → List Event → List Event
  | _, [] => []
  | k, e :: rest =>
    if (k + 1) % batch == 0 then
      e :: Event.checkpoint :: addCk batch (k + 1) rest
    else
      e :: addCk batch (k + 1) rest

/-- The in-memory effect of one enrichment pass: pending records get their
`city` cell overwritten with the lookup result, all others are untouched. -/
def enrichedStore (geocode : Polygon → Option String)
    (recs : List ZoneRecord) : List ZoneRecord :=
  recs.map (fun z => if isPending z then setCity z (geocode z.geometry) else z)

/-- Distinct elements of a list in first-seen order (the key order of an
insertion-ordered dict built left to right). -/
def firstSeen : List Value → List Value
  | [] => []
  | k :: ks => k :: (firstSeen ks).filter (fun k2 => k2 != k)

/-- The non-null values of the `city` column (`value_counts` drops NaN). -/
def cityValues (recs : List ZoneRecord) : List Value :=
  recs.filterMap (fun z =>
    match getAttr z.attrs "city" with
    | some Value.null => none
    | some v => some v
    | none => none)

/-- Descending insertion by count (stable: equal counts keep order). -/
def insertByCount (p : Value × Nat) :
    List (Value × Nat) → List (Value × Nat)
  | [] => [p]
  | q :: qs => if q.2 < p.2 then p :: q :: qs else q :: insertByCount p qs

/-- Stable insertion sort by count, descending. -/
def sortByCountDesc : List (Value × Nat) → List (Value × Nat)
  | [] => []
  | p :: ps => insertByCount p (sortByCountDesc ps)

/-- Model of `pandas.Series.value_counts()` (line 313): occurrence counts
of the distinct non-null values, in descending order of count. -/
def value_counts (vs : List Value) : List (Value × Nat) :=
  sortByCountDesc ((firstSeen vs).map (fun v => (v, vs.count v)))

/-- The statistics dict of `get_stats` (lines 292-315); the `Option`
fields model keys that are only present when the column exists. -/
structure Stats where
  total_zones : Nat
  cities : Option Nat
  city_distribution : Option (List (Value × Nat))
deriving DecidableEq, Repr

/-- The stats of a loaded store (lines 302-315): `city_distribution` is
`value_counts().head(10)`, present only when the `city` column exists. -/
def getStatsOf (recs : List ZoneRecord) : Stats :=
  let hasCity := recs.all (fun z => (getAttr z.attrs "city").isSome)
  { total_zones := recs.length,
    cities := if hasCity then some ((firstSeen (cityValues recs)).length)
              else none,
    city_distribution :=
      if hasCity then some ((value_counts (cityValues recs)).take 10)
      else none }

/-- `RTEZoneChecker.get_stats` (lines 292-315): the empty dict (`none`)
when the store was never loaded. -/
def get_stats (c : RTEZoneChecker) : Option Stats :=
  c.gdf.map getStatsOf

/-- The restaurant group a key `rid` receives from the full input list
`all`: partner of the first zone with that key, all that key's zone
entries in input order. -/
def specGroup (all : List ZoneRecord) (rid : Value) : RestaurantGroup :=
  { restaurant_id := rid,
    partner :=
      match all.find? (fun z => keyOf z == rid) with
      | some z => partnerOf z
      | none => Value.str "Неизвестно",
    zones := (all.filter (fun z => keyOf z == rid)).map entryOf }

/-- Canonical form of the grouping result: one group per distinct key in
first-seen order, each populated from the whole input. -/
def groupsSpec (all : List ZoneRecord) : List RestaurantGroup :=
  (firstSeen (all.map keyOf)).map (specGroup all)

/-- Extension of an already-created group by the zones of a subsequent
input suffix: the suffix's matching entries are appended in order. -/
def extGroup (zs : List ZoneRecord) (g : RestaurantGroup) :
    RestaurantGroup :=
  { g with zones := g.zones ++
      ((zs.filter (fun z => keyOf z == g.restaurant_id)).map entryOf) }

/-- The zones of `zs` whose key is NOT already a group key of `acc`. -/
def newKeys (acc : List RestaurantGroup) (zs : List ZoneRecord) :
    List ZoneRecord :=
  zs.filter (fun z => !(acc.any (fun g => keyOf z == g.restaurant_id)))

/-- A 2×2 square zone polygon used as concrete test data. -/
def sqPoly : Polygon := ⟨[⟨0, 0⟩, ⟨2, 0⟩, ⟨2, 2⟩, ⟨0, 2⟩]⟩

/-- A store record carrying the square polygon and no attributes. -/
def sqZone : ZoneRecord := ⟨0, sqPoly, []⟩

/-- A record with a null `city` cell (pending enrichment). -/
def pendA : ZoneRecord := ⟨0, sqPoly, [("city", Value.null)]⟩

/-- A record with an empty-string `city` cell (pending enrichment). -/
def pendB : ZoneRecord := ⟨1, sqPoly, [("city", Value.str "")]⟩

/-- Another record with a null `city` cell (pending enrichment). -/
def pendC : ZoneRecord := ⟨2, sqPoly, [("city", Value.null)]⟩

/-- A record whose `city` cell is already filled. -/
def doneA : ZoneRecord := ⟨0, sqPoly, [("city", Value.str "Москва")]⟩

/-- Another record whose `city` cell is already filled. -/
def doneB : ZoneRecord := ⟨1, sqPoly, [("city", Value.str "Казань")]⟩

/-- Eleven records with eleven distinct city values. -/
def cityRecs : List ZoneRecord :=
  [⟨0, sqPoly, [("city", Value.str "c0")]⟩,
   ⟨1, sqPoly, [("city", Value.str "c1")]⟩,
   ⟨2, sqPoly, [("city", Value.str "c2")]⟩,
   ⟨3, sqPoly, [("city", Value.str "c3")]⟩,
   ⟨4, sqPoly, [("city", Value.str "c4")]⟩,
   ⟨5, sqPoly, [("city", Value.str "c5")]⟩,
   ⟨6, sqPoly, [("city", Value.str "c6")]⟩,
   ⟨7, sqPoly, [("city", Value.str "c7")]⟩,
   ⟨8, sqPoly, [("city", Value.str "c8")]⟩,
   ⟨9, sqPoly, [("city", Value.str "c9")]⟩,
   ⟨10, sqPoly, [("city", Value.str "c10")]⟩]

lemma mem_loadDataFrom (parse : String → Option Polygon)
    (rows : List RawRow) :
    ∀ (n : Nat) (z : ZoneRecord), z ∈ loadDataFrom parse n rows →
      ∃ i r w, rows[i]? = some r ∧ r.wkt = some w ∧
        parse w = some z.geometry ∧ z.attrs = r.attrs ∧ z.id = n + i := by
  induction rows with
  | nil => intro n z h; simp [loadDataFrom] at h
  | cons r rs ih =>
    intro n z h
    cases hw : r.wkt with
    | none =>
      simp only [loadDataFrom, hw] at h
      obtain ⟨i, r', w, h1, h2, h3, h4, h5⟩ := ih (n + 1) z h
      exact ⟨i + 1, r', w, by simpa using h1, h2, h3, h4, by omega⟩
    | some w0 =>
      cases hp : parse w0 with
      | none =>
        simp only [loadDataFrom, hw, hp] at h
        obtain ⟨i, r', w, h1, h2, h3, h4, h5⟩ := ih (n + 1) z h
        exact ⟨i + 1, r', w, by simpa using h1, h2, h3, h4, by omega⟩
      | some g =>
        simp only [loadDataFrom, hw, hp] at h
        rcases List.mem_cons.mp h with hz | hz
        · subst hz
          exact ⟨0, r, w0, by simp, hw, hp, rfl, by simp⟩
        · obtain ⟨i, r', w, h1, h2, h3, h4, h5⟩ := ih (n + 1) z hz
          exact ⟨i + 1, r', w, by simpa using h1, h2, h3, h4, by omega⟩

lemma loadDataFrom_mem_of (parse : String → Option Polygon)
    (rows : List RawRow) :
    ∀ (n i : Nat) (r : RawRow) (w : String) (g : Polygon),
      rows[i]? = some r → r.wkt = some w → parse w = some g →
      (⟨n + i, g, r.attrs⟩ : ZoneRecord) ∈ loadDataFrom parse n rows := by
  induction rows with
  | nil => intro n i r w g h; simp at h
  | cons r0 rs ih =>
    intro n i r w g h hw hp
    cases i with
    | zero =>
      simp only [List.getElem?_cons_zero, Option.some.injEq] at h
      subst h
      simp only [loadDataFrom, hw, hp, Nat.add_zero]
      exact List.mem_cons_self _ _
    | succ j =>
      simp only [List.getElem?_cons_succ] at h
      have hmem := ih (n + 1) j r w g h hw hp
      have e : n + (j + 1) = n + 1 + j := by omega
      rw [e]
      cases hw0 : r0.wkt with
      | none => simpa [loadDataFrom, hw0] using hmem
      | some w0 =>
        cases hp0 : parse w0 with
        | none => simpa [loadDataFrom, hw0, hp0] using hmem
        | some g0 =>
          simp only [loadDataFrom, hw0, hp0]
          exact List.mem_cons_of_mem _ hmem

lemma loadDataFrom_pairwise_id (parse : String → Option Polygon)
    (rows : List RawRow) :
    ∀ n : Nat, (loadDataFrom parse n rows).Pairwise
      (fun a b => a.id < b.id) := by
  induction rows with
  | nil => intro n; simp [loadDataFrom]
  | cons r rs ih =>
    intro n
    cases hw : r.wkt with
    | none => simpa only [loadDataFrom, hw] using ih (n + 1)
    | some w =>
      cases hp : parse w with
      | none => simpa only [loadDataFrom, hw, hp] using ih (n + 1)
      | some g =>
        simp only [loadDataFrom, hw, hp]
        refine List.Pairwise.cons ?_ (ih (n + 1))
        intro z hz
        obtain ⟨i, r', w', _, _, _, _, h5⟩ :=
          mem_loadDataFrom parse rs (n + 1) z hz
        simp only
        omega

/-- C7: after `load_data`, every store record's geometry is the successful
parse of its row's `WKT` text and its `id` is that row's original
(pre-filter) position; a row whose `WKT` cell is empty or unparsable
yields no record at all, while every parseable row yields its record
regardless of the other rows. -/
theorem claim_C7 (parse : String → Option Polygon) (rows : List RawRow) :
    (∀ z ∈ load_data parse rows, ∃ r w,
        rows[z.id]? = some r ∧ r.wkt = some w ∧
        parse w = some z.geometry ∧ z.attrs = r.attrs)
    ∧ (∀ i r, rows[i]? = some r →
        ((∃ w g, r.wkt = some w ∧ parse w = some g ∧
            (⟨i, g, r.attrs⟩ : ZoneRecord) ∈ load_data parse rows)
         ∨ ((r.wkt = none ∨ ∃ w, r.wkt = some w ∧ parse w = none) ∧
            ∀ z ∈ load_data parse rows, z.id ≠ i))) := by
  constructor
  · intro z hz
    obtain ⟨i, r, w, h1, h2, h3, h4, h5⟩ :=
      mem_loadDataFrom parse rows 0 z hz
    have e : z.id = i := by omega
    rw [e]
    exact ⟨r, w, h1, h2, h3, h4⟩
  · intro i r hr
    cases hw : r.wkt with
    | some w =>
      cases hp : parse w with
      | some g =>
        left
        refine ⟨w, g, rfl, hp, ?_⟩
        have := loadDataFrom_mem_of parse rows 0 i r w g hr hw hp
        simpa [load_data] using this
      | none =>
        right
        refine ⟨Or.inr ⟨w, rfl, hp⟩, ?_⟩
        intro z hz hzi
        obtain ⟨i', r', w', h1, h2, h3, h4, h5⟩ :=
          mem_loadDataFrom parse rows 0 z hz
        have e : i' = i := by omega
        subst e
        rw [hr] at h1
        cases h1
        rw [hw] at h2
        cases h2
        rw [hp] at h3
        cases h3
    | none =>
      right
      refine ⟨Or.inl rfl, ?_⟩
      intro z hz hzi
      obtain ⟨i', r', w', h1, h2, h3, h4, h5⟩ :=
        mem_loadDataFrom parse rows 0 z hz
      have e : i' = i := by omega
      subst e
      rw [hr] at h1
      cases h1
      rw [hw] at h2
      cases h2

/-- Witness for C7 at a concrete three-row source (one parseable row, one
empty cell, one unparsable text). -/
theorem claim_C7_witness :
    ((⟨0, sqPoly, []⟩ : ZoneRecord) ∈
        load_data (fun s => if s = "SQ" then some sqPoly else none)
          [⟨some "SQ", []⟩, ⟨none, []⟩, ⟨some "BAD", []⟩])
    ∧ (∀ z ∈ load_data (fun s => if s = "SQ" then some sqPoly else none)
          [⟨some "SQ", []⟩, ⟨none, []⟩, ⟨some "BAD", []⟩], z.id ≠ 1)
    ∧ (∀ z ∈ load_data (fun s => if s = "SQ" then some sqPoly else none)
          [⟨some "SQ", []⟩, ⟨none, []⟩, ⟨some "BAD", []⟩], z.id ≠ 2) := by
  have h := claim_C7 (fun s => if s = "SQ" then some sqPoly else none)
    [⟨some "SQ", []⟩, ⟨none, []⟩, ⟨some "BAD", []⟩]
  refine ⟨?_, ?_, ?_⟩
  · rcases h.2 0 ⟨some "SQ", []⟩ rfl with ⟨w, g, hw, hp, hmem⟩ | ⟨hbad, _⟩
    · cases hw
      have hg : g = sqPoly := by simpa using hp.symm
      rw [hg] at hmem
      exact hmem
    · rcases hbad with h0 | ⟨w, hw, hbadp⟩
      · cases h0
      · cases hw
        simp at hbadp
  · rcases h.2 1 ⟨none, []⟩ rfl with ⟨w, g, hw, _, _⟩ | ⟨_, hexcl⟩
    · cases hw
    · exact hexcl
  · rcases h.2 2 ⟨some "BAD", []⟩ rfl with ⟨w, g, hw, hp, _⟩ | ⟨_, hexcl⟩
    · cases hw
      simp at hp
    · exact hexcl

/-- C5: on a loaded store, `point_in_zones` returns exactly the zones whose
geometry contains the query point — all of them, no early exit — in store
order, whose `id`s are strictly ascending (the original row order). -/
theorem claim_C5 (parse : String → Option Polygon) (rows : List RawRow)
    (lat lon : ℚ) :
    point_in_zones ⟨some (load_data parse rows)⟩ lat lon
      = .ok ((load_data parse rows).filter
          (fun z => zoneContains z.geometry (Pt.mk lon lat)))
    ∧ (∀ z, z ∈ (load_data parse rows).filter
          (fun z => zoneContains z.geometry (Pt.mk lon lat)) ↔
        z ∈ load_data parse rows ∧
          zoneContains z.geometry (Pt.mk lon lat) = true)
    ∧ ((load_data parse rows).filter
          (fun z => zoneContains z.geometry (Pt.mk lon lat))).Pairwise
        (fun a b => a.id < b.id) := by
  refine ⟨rfl, fun z => List.mem_filter, ?_⟩
  exact (loadDataFrom_pairwise_id parse rows 0).sublist (List.filter_sublist _)

/-- C2 (amended): querying a NEVER-LOADED store raises the data-source
error, but querying a loaded-yet-empty store silently returns the empty
list. -/
theorem claim_C2 (lat lon : ℚ) :
    point_in_zones ⟨none⟩ lat lon = .error "Данные не загружены"
    ∧ point_in_zones ⟨some []⟩ lat lon = .ok [] :=
  ⟨rfl, rfl⟩

/-- Counterexample to C2 as stated: a store loaded from a source whose
only row has an empty `WKT` cell is empty, and querying it returns
`ok []` instead of raising. -/
theorem claim_C2_counterexample :
    point_in_zones
      ⟨some (load_data (fun _ => none) [⟨none, []⟩])⟩ 0 0 = .ok [] := rfl

/-- C1 (amended): a point lying exactly on the edge of a zone's polygon is
NOT included in `point_in_zones` — the replicated `contains` predicate is
interior-only, so edge points are excluded. -/
theorem claim_C1 (recs : List ZoneRecord) (lat lon : ℚ) (z : ZoneRecord)
    (_hmem : z ∈ recs)
    (hedge : onRing (Pt.mk lon lat) z.geometry.ring = true)
    (res : List ZoneRecord)
    (hres : point_in_zones ⟨some recs⟩ lat lon = .ok res) :
    z ∉ res := by
  intro hin
  simp only [point_in_zones, Except.ok.injEq] at hres
  rw [← hres] at hin
  have hc := (List.mem_filter.mp hin).2
  simp only [zoneContains, hedge, Bool.not_true, Bool.false_and] at hc
  cases hc

/-- Counterexample to C1 as stated: the point (lat 1, lon 0) lies exactly
on the left edge of the square zone, yet `point_in_zones` returns the
empty list rather than including the zone. -/
theorem claim_C1_counterexample :
    onRing (Pt.mk 0 1) sqZone.geometry.ring = true
    ∧ point_in_zones ⟨some [sqZone]⟩ 1 0 = .ok [] := by
  constructor
  · norm_num [onRing, edgesOf, onSegment, cross, sqZone, sqPoly]
  · norm_num [point_in_zones, List.filter, zoneContains, onRing, edgesOf,
      onSegment, cross, sqZone, sqPoly]

/-- Witness for C1 (amended) at the square zone and an edge point. -/
theorem claim_C1_witness :
    sqZone ∈ [sqZone]
    ∧ onRing (Pt.mk 0 1) sqZone.geometry.ring = true
    ∧ sqZone ∉ ([] : List ZoneRecord) :=
  ⟨List.mem_singleton.mpr rfl,
    by norm_num [onRing, edgesOf, onSegment, cross, sqZone, sqPoly],
    claim_C1 [sqZone] 1 0 sqZone (List.mem_singleton.mpr rfl)
      (by norm_num [onRing, edgesOf, onSegment, cross, sqZone, sqPoly]) []
      (by norm_num [point_in_zones, List.filter, zoneContains, onRing,
        edgesOf, onSegment, cross, sqZone, sqPoly])⟩

lemma enrichLoop_store (geocode : Polygon → Option String)
    (saveFile : Option String) (batch : Nat) :
    ∀ (zs : List ZoneRecord) (k : Nat),
      (enrichLoop geocode saveFile batch k zs).1
        = zs.map (fun z =>
            if isPending z then setCity z (geocode z.geometry) else z) := by
  intro zs
  induction zs with
  | nil => intro k; simp [enrichLoop]
  | cons z zs ih =>
    intro k
    cases hp : isPending z with
    | true => simp [enrichLoop, hp, ih]
    | false => simp [enrichLoop, hp, ih]

lemma enrichLoop_events_truthy (geocode : Polygon → Option String)
    (saveFile : Option String) (batch : Nat)
    (htr : pyTruthy saveFile = true) :
    ∀ (zs : List ZoneRecord) (k : Nat),
      (enrichLoop geocode saveFile batch k zs).2
        = addCk batch k (pureLookups geocode zs) := by
  intro zs
  induction zs with
  | nil => intro k; simp [enrichLoop, pureLookups, addCk]
  | cons z zs ih =>
    intro k
    cases hp : isPending z with
    | true =>
      cases hb : (k + 1) % batch == 0 with
      | true => simp [enrichLoop, pureLookups, addCk, hp, hb, htr, ih]
      | false => simp [enrichLoop, pureLookups, addCk, hp, hb, htr, ih]
    | false => simp [enrichLoop, pureLookups, hp, ih]

lemma enrichLoop_events_falsy (geocode : Polygon → Option String)
    (saveFile : Option String) (batch : Nat)
    (hfa : pyTruthy saveFile = false) :
    ∀ (zs : List ZoneRecord) (k : Nat),
      (enrichLoop geocode saveFile batch k zs).2
        = pureLookups geocode zs := by
  intro zs
  induction zs with
  | nil => intro k; simp [enrichLoop, pureLookups]
  | cons z zs ih =>
    intro k
    cases hp : isPending z with
    | true => simp [enrichLoop, pureLookups, hp, hfa, ih]
    | false => simp [enrichLoop, pureLookups, hp, ih]

lemma pureLookups_shape (geocode : Polygon → Option String) :
    ∀ (zs : List ZoneRecord) (e : Event), e ∈ pureLookups geocode zs →
      ∃ i c, e = Event.lookup i c := by
  intro zs
  induction zs with
  | nil => intro e he; simp [pureLookups] at he
  | cons z zs ih =>
    intro e he
    cases hp : isPending z with
    | true =>
      simp only [pureLookups, hp, if_true] at he
      rcases List.mem_cons.mp he with h | h
      · exact ⟨z.id, geocode z.geometry, h⟩
      · exact ih e h
    | false =>
      simp only [pureLookups, hp, if_false] at he
      exact ih e he

lemma enrichLoop_noPending (geocode : Polygon → Option String)
    (saveFile : Option String) (batch : Nat) :
    ∀ (zs : List ZoneRecord), (∀ z ∈ zs, isPending z = false) →
      ∀ k, enrichLoop geocode saveFile batch k zs = (zs, []) := by
  intro zs
  induction zs with
  | nil => intro _ k; simp [enrichLoop]
  | cons z zs ih =>
    intro h k
    have hz : isPending z = false := h z (List.mem_cons_self _ _)
    have hzs := ih (fun z' hz' => h z' (List.mem_cons_of_mem _ hz'))
    simp [enrichLoop, hz, hzs k]

/-- C4: running `add_city_column` on a store in which every record already
carries a non-empty `city` value performs no external lookup and leaves
the store unchanged. -/
theorem claim_C4 (geocode : Polygon → Option String)
    (saveFile : Option String) (batch : Nat) (recs : List ZoneRecord)
    (h : ∀ z ∈ recs, ∃ s, getAttr z.attrs "city" = some (Value.str s) ∧
        s ≠ "") :
    (add_city_column geocode saveFile batch recs).store = recs
    ∧ ∀ i c, Event.lookup i c ∉
        (add_city_column geocode saveFile batch recs).events := by
  have hall : recs.all (fun z => (getAttr z.attrs "city").isSome) = true := by
    rw [List.all_eq_true]
    intro z hz
    obtain ⟨s, hs, _⟩ := h z hz
    simp [hs]
  have hens : ensureCityColumn recs = recs := by
    simp [ensureCityColumn, hall]
  have hnp : ∀ z ∈ recs, isPending z = false := by
    intro z hz
    obtain ⟨s, hs, hne⟩ := h z hz
    simp [isPending, hs, hne]
  have hloop := enrichLoop_noPending geocode saveFile batch recs hnp 0
  constructor
  · simp [add_city_column, hens, hloop]
  · intro i c
    simp only [add_city_column, hens, hloop]
    cases htr : pyTruthy saveFile with
    | true => simp [htr]
    | false => simp [htr]

/-- Witness for C4: a two-record store with cities already filled. -/
theorem claim_C4_witness :
    (∀ z ∈ [doneA, doneB], ∃ s,
        getAttr z.attrs "city" = some (Value.str s) ∧ s ≠ "")
    ∧ (add_city_column (fun _ => some "X") (some "out.csv") 10
        [doneA, doneB]).store = [doneA, doneB] := by
  have h : ∀ z ∈ [doneA, doneB], ∃ s,
      getAttr z.attrs "city" = some (Value.str s) ∧ s ≠ "" := by
    intro z hz
    rcases List.mem_cons.mp hz with h1 | h1
    · exact ⟨"Москва", by rw [h1]; rfl, by decide⟩
    · rcases List.mem_cons.mp h1 with h2 | h2
      · exact ⟨"Казань", by rw [h2]; rfl, by decide⟩
      · simp at h2
  exact ⟨h, (claim_C4 (fun _ => some "X") (some "out.csv") 10
    [doneA, doneB] h).1⟩

/-- C3 (amended): with a truthy output path and batch size N ≥ 1, the event
trace of `add_city_column` is exactly the lookup trace of the pending
records (attempts, successful or not) with a checkpoint inserted after
every N-th ATTEMPTED record, followed by the final save. -/
theorem claim_C3 (geocode : Polygon → Option String)
    (saveFile : Option String) (batch : Nat) (recs : List ZoneRecord)
    (htr : pyTruthy saveFile = true) (_hb : 0 < batch) :
    (add_city_column geocode saveFile batch recs).events
      = addCk batch 0 (pureLookups geocode (ensureCityColumn recs))
        ++ [Event.finalSave] := by
  simp [add_city_column, htr,
    enrichLoop_events_truthy geocode saveFile batch htr]

/-- Counterexample to C3 as stated: with batch size 1, a single pending
record whose lookup FAILS (returns no city) still triggers a checkpoint —
the counter counts attempts, not records whose lookup returned a city
(under the claim, zero successes means no checkpoint at all). -/
theorem claim_C3_counterexample :
    (add_city_column (fun _ => none) (some "out.csv") 1 [pendA]).events
      = [Event.lookup 0 none, Event.checkpoint, Event.finalSave] := rfl

/-- Witness for C3 (amended): three pending records, batch size 2. -/
theorem claim_C3_witness :
    pyTruthy (some "out.csv") = true ∧ 0 < 2 ∧
    (add_city_column (fun _ => some "Москва") (some "out.csv") 2
        [pendA, pendB, pendC]).events
      = addCk 2 0 (pureLookups (fun _ => some "Москва")
          (ensureCityColumn [pendA, pendB, pendC]))
        ++ [Event.finalSave] :=
  ⟨by decide, by decide,
    claim_C3 (fun _ => some "Москва") (some "out.csv") 2
      [pendA, pendB, pendC] (by decide) (by decide)⟩

/-- C9: with no output path (`save_file = None`), `add_city_column`
performs no persistence at all — no batch checkpoint and no final save —
while still overwriting the `city` cell of every pending record in
memory. -/
theorem claim_C9 (geocode : Polygon → Option String) (batch : Nat)
    (recs : List ZoneRecord) :
    (add_city_column geocode none batch recs).store
      = enrichedStore geocode (ensureCityColumn recs)
    ∧ Event.checkpoint ∉ (add_city_column geocode none batch recs).events
    ∧ Event.finalSave ∉ (add_city_column geocode none batch recs).events := by
  have hst := enrichLoop_store geocode none batch (ensureCityColumn recs) 0
  have hev := enrichLoop_events_falsy geocode none batch rfl
    (ensureCityColumn recs) 0
  refine ⟨?_, ?_, ?_⟩
  · simp [add_city_column, enrichedStore, hst]
  · simp only [add_city_column, hev, pyTruthy]
    rw [if_neg (by simp), List.append_nil]
    intro hmem
    obtain ⟨i, c, he⟩ := pureLookups_shape geocode _ _ hmem
    cases he
  · simp only [add_city_column, hev, pyTruthy]
    rw [if_neg (by simp), List.append_nil]
    intro hmem
    obtain ⟨i, c, he⟩ := pureLookups_shape geocode _ _ hmem
    cases he

lemma pyOr_chain (addr : List (String × String)) (last : String) :
    ∀ ks : List String,
      List.foldr (fun k acc => pyOrS (addrGet addr k) acc)
        (addrGet addr last) ks
      = match (ks ++ [last]).findSome? (fun k =>
            match addrGet addr k with
            | some s => if s = "" then none else some s
            | none => none) with
        | some s => some s
        | none => addrGet addr last := by
  intro ks
  induction ks with
  | nil =>
    simp only [List.nil_append, List.foldr_nil, List.findSome?]
    cases h : addrGet addr last with
    | none => simp
    | some s =>
      by_cases hs : s = ""
      · simp [hs, List.findSome?]
      · simp [hs]
  | cons k ks ih =>
    simp only [List.cons_append, List.foldr_cons, List.findSome?]
    cases h : addrGet addr k with
    | none => simpa [pyOrS] using ih
    | some s =>
      by_cases hs : s = ""
      · simpa [pyOrS, hs] using ih
      · simp [pyOrS, hs]

/-- C8 (amended): the city of a 200 response is the first of the address
fields `city`, `town`, `village`, `municipality`, `county` whose value is
present AND non-empty (Python truthiness — a present-but-empty field is
skipped); when no field is non-empty the result is the raw `county` value
(possibly absent or empty).  A non-200 status or a transport failure
yields no city, and the function is total (never raises). -/
theorem claim_C8 :
    get_city_from_coordinates GeoResponse.failure = none
    ∧ (∀ (st : Nat) (addr : List (String × String)), st ≠ 200 →
        get_city_from_coordinates (.http st addr) = none)
    ∧ (∀ addr : List (String × String),
        get_city_from_coordinates (.http 200 addr)
          = match firstNonEmptyCity addr with
            | some s => some s
            | none => addrGet addr "county") := by
  refine ⟨rfl, ?_, ?_⟩
  · intro st addr h
    simp [get_city_from_coordinates, h]
  · intro addr
    have hchain := pyOr_chain addr "county"
      ["city", "town", "village", "municipality"]
    simp only [List.foldr_cons, List.foldr_nil] at hchain
    simp only [get_city_from_coordinates, if_pos rfl, firstNonEmptyCity]
    exact hchain

/-- Counterexample to C8 as stated: in the response
`{"address": {"city": "", "town": "T"}}` the first PRESENT field is
`city` (value `""`), but the code's truthiness chain skips it and returns
`"T"`. -/
theorem claim_C8_counterexample :
    get_city_from_coordinates
        (.http 200 [("city", ""), ("town", "T")]) = some "T"
    ∧ cityFirstPresent [("city", ""), ("town", "T")] = some "" :=
  ⟨rfl, rfl⟩

/-- Witness for C8 (amended) at a non-200 status. -/
theorem claim_C8_witness :
    (404 : Nat) ≠ 200
    ∧ get_city_from_coordinates (.http 404 [("city", "X")]) = none :=
  ⟨by decide, claim_C8.2.1 404 [("city", "X")] (by decide)⟩

lemma mem_insertByCount (p : Value × Nat) :
    ∀ (l : List (Value × Nat)) (q : Value × Nat),
      q ∈ insertByCount p l → q = p ∨ q ∈ l := by
  intro l
  induction l with
  | nil => intro q h; simpa [insertByCount] using h
  | cons r rs ih =>
    intro q h
    by_cases hc : r.2 < p.2
    · simp only [insertByCount, if_pos hc] at h
      rcases List.mem_cons.mp h with h1 | h1
      · exact Or.inl h1
      · exact Or.inr h1
    · simp only [insertByCount, if_neg hc] at h
      rcases List.mem_cons.mp h with h1 | h1
      · exact Or.inr (h1 ▸ List.mem_cons_self _ _)
      · rcases ih q h1 with h2 | h2
        · exact Or.inl h2
        · exact Or.inr (List.mem_cons_of_mem _ h2)

lemma pairwise_insertByCount (p : Value × Nat) :
    ∀ l : List (Value × Nat),
      l.Pairwise (fun a b => b.2 ≤ a.2) →
      (insertByCount p l).Pairwise (fun a b => b.2 ≤ a.2) := by
  intro l
  induction l with
  | nil => intro _; simp [insertByCount]
  | cons r rs ih =>
    intro h
    rcases List.pairwise_cons.mp h with ⟨hr, hrs⟩
    by_cases hc : r.2 < p.2
    · simp only [insertByCount, if_pos hc]
      refine List.Pairwise.cons ?_ h
      intro x hx
      rcases List.mem_cons.mp hx with h1 | h1
      · subst h1; omega
      · have := hr x h1
        omega
    · simp only [insertByCount, if_neg hc]
      refine List.Pairwise.cons ?_ (ih hrs)
      intro x hx
      rcases mem_insertByCount p rs x hx with h1 | h1
      · subst h1; omega
      · exact hr x h1

lemma pairwise_sortByCountDesc (l : List (Value × Nat)) :
    (sortByCountDesc l).Pairwise (fun a b => b.2 ≤ a.2) := by
  induction l with
  | nil => simp [sortByCountDesc]
  | cons p ps ih => exact pairwise_insertByCount p _ ih

/-- C10: whenever `get_stats` reports a `city_distribution`, it has at most
10 entries — the head of the full per-city counts sorted in descending
order of count (pandas `value_counts().head(10)`) — even when more
distinct cities exist. -/
theorem claim_C10 (recs : List ZoneRecord) (d : List (Value × Nat))
    (h : (getStatsOf recs).city_distribution = some d) :
    d.length ≤ 10
    ∧ d = (value_counts (cityValues recs)).take 10
    ∧ (value_counts (cityValues recs)).Pairwise (fun a b => b.2 ≤ a.2) := by
  by_cases hc : recs.all (fun z => (getAttr z.attrs "city").isSome) = true
  · simp only [getStatsOf, hc, if_pos, Option.some.injEq] at h
    refine ⟨?_, h.symm, pairwise_sortByCountDesc _⟩
    rw [← h]
    exact le_trans (List.length_take_le _ _) (le_refl _)
  · simp only [getStatsOf] at h
    rw [if_neg hc] at h
    cases h

/-- Witness for C10: a store with 11 distinct city values still reports at
most 10 distribution entries (here the store has 11 distinct cities). -/
theorem claim_C10_witness :
    (getStatsOf cityRecs).city_distribution
      = some ((value_counts (cityValues cityRecs)).take 10)
    ∧ (firstSeen (cityValues cityRecs)).length = 11
    ∧ ((value_counts (cityValues cityRecs)).take 10).length ≤ 10 :=
  ⟨rfl, rfl, (claim_C10 cityRecs _ rfl).1⟩

lemma filter_of_imp {α : Type} (p q : α → Bool)
    (h : ∀ a, q a = true → p a = true) :
    ∀ l : List α, (l.filter p).filter q = l.filter q := by
  intro l
  induction l with
  | nil => simp
  | cons a l ih =>
    cases hp : p a with
    | true =>
      cases hq : q a with
      | true => simp [List.filter_cons, hp, hq, ih]
      | false => simp [List.filter_cons, hp, hq, ih]
    | false =>
      have hq : q a = false := by
        cases hqa : q a with
        | false => rfl
        | true =>
          have := h a hqa
          rw [hp] at this
          exact this.symm
      simp [List.filter_cons, hp, hq, ih]

lemma find?_filter_of_imp {α : Type} (p q : α → Bool)
    (h : ∀ a, q a = true → p a = true) :
    ∀ l : List α, (l.filter p).find? q = l.find? q := by
  intro l
  induction l with
  | nil => simp
  | cons a l ih =>
    cases hq : q a with
    | true =>
      have hp : p a = true := h a hq
      rw [List.filter_cons_of_pos hp,
        List.find?_cons_of_pos _ hq, List.find?_cons_of_pos _ hq]
    | false =>
      cases hp : p a with
      | true =>
        rw [List.filter_cons_of_pos hp,
          List.find?_cons_of_neg _ (by simp [hq]),
          List.find?_cons_of_neg _ (by simp [hq])]
        exact ih
      | false =>
        rw [List.filter_cons_of_neg (by simp [hp]),
          List.find?_cons_of_neg _ (by simp [hq])]
        exact ih

lemma firstSeen_filter (k : Value) :
    ∀ ks : List Value,
      firstSeen (ks.filter (fun x => x != k))
        = (firstSeen ks).filter (fun x => x != k) := by
  intro ks
  induction ks with
  | nil => simp [firstSeen]
  | cons a ks ih =>
    by_cases ha : a = k
    · subst ha
      rw [List.filter_cons_of_neg (by simp), ih]
      rw [show firstSeen (a :: ks)
          = a :: (firstSeen ks).filter (fun x => x != a) from rfl]
      rw [List.filter_cons_of_neg (by simp)]
      exact (filter_of_imp _ _ (fun x hx => hx) _).symm
    · rw [List.filter_cons_of_pos (by simp [ha])]
      rw [show firstSeen (a :: ks.filter (fun x => x != k))
          = a :: (firstSeen (ks.filter (fun x => x != k))).filter
              (fun x => x != a) from rfl]
      rw [show firstSeen (a :: ks)
          = a :: (firstSeen ks).filter (fun x => x != a) from rfl]
      rw [List.filter_cons_of_pos (by simp [ha]), ih]
      congr 1
      rw [List.filter_filter, List.filter_filter]
      congr 1
      funext x
      exact Bool.and_comm _ _

lemma appendEntry_restaurant_id (z : ZoneRecord) (g : RestaurantGroup) :
    (appendEntry z g).restaurant_id = g.restaurant_id := by
  unfold appendEntry
  split <;> rfl

lemma foldl_addZone_eq :
    ∀ (zs : List ZoneRecord) (acc : List RestaurantGroup),
      zs.foldl addZone acc
        = acc.map (extGroup zs) ++ groupsSpec (newKeys acc zs) := by
  intro zs
  induction zs with
  | nil =>
    intro acc
    simp only [List.foldl_nil, newKeys, List.filter_nil, groupsSpec,
      List.map_nil, firstSeen, List.append_nil]
    have hid : ∀ g : RestaurantGroup, extGroup [] g = g := by
      intro g
      simp [extGroup]
    rw [List.map_congr_left (fun g _ => hid g), List.map_id']
  | cons z zs ih =>
    intro acc
    rw [List.foldl_cons]
    cases hin : acc.any (fun g => keyOf z == g.restaurant_id) with
    | true =>
      have haz : addZone acc z = acc.map (appendEntry z) := by
        simp [addZone, hin]
      rw [haz, ih]
      have h1 : newKeys (acc.map (appendEntry z)) zs = newKeys acc zs := by
        unfold newKeys
        congr 1
        funext z'
        rw [List.any_map]
        have hfun : ((fun g => keyOf z' == g.restaurant_id) ∘ appendEntry z)
            = (fun g : RestaurantGroup => keyOf z' == g.restaurant_id) := by
          funext g
          simp [Function.comp, appendEntry_restaurant_id]
        rw [hfun]
      have h2 : newKeys acc (z :: zs) = newKeys acc zs := by
        unfold newKeys
        rw [List.filter_cons_of_neg (by simp [hin])]
      rw [h1, h2, List.map_map]
      congr 1
      apply List.map_congr_left
      intro g _
      show extGroup zs (appendEntry z g) = extGroup (z :: zs) g
      by_cases h : (keyOf z == g.restaurant_id) = true
      · simp only [appendEntry, if_pos h, extGroup, List.filter_cons, h,
          if_true, List.map_cons]
        simp [List.append_assoc]
      · simp only [appendEntry, if_neg h, extGroup, List.filter_cons, h,
          Bool.false_eq_true, if_false]
    | false =>
      have haz : addZone acc z
          = acc ++ [⟨keyOf z, partnerOf z, [entryOf z]⟩] := by
        simp [addZone, hin]
      rw [haz, ih, List.map_append]
      have hmem : ∀ g ∈ acc, (keyOf z == g.restaurant_id) = false := by
        intro g hg
        have := List.any_eq_false.mp hin g hg
        simpa using this
      have e1 : acc.map (extGroup zs) = acc.map (extGroup (z :: zs)) := by
        apply List.map_congr_left
        intro g hg
        unfold extGroup
        rw [List.filter_cons_of_neg (by simp [hmem g hg])]
      have hq : ∀ z' : ZoneRecord, (keyOf z' == keyOf z) = true →
          (!(acc.any (fun g => keyOf z' == g.restaurant_id))) = true := by
        intro z' hz'
        have hk : keyOf z' = keyOf z := eq_of_beq hz'
        simp only [hk, hin]
        rfl
      have e2 : newKeys acc (z :: zs) = z :: newKeys acc zs := by
        unfold newKeys
        rw [List.filter_cons_of_pos (by simp [hin])]
      have e3 : (newKeys acc zs).filter (fun z' => keyOf z' == keyOf z)
          = zs.filter (fun z' => keyOf z' == keyOf z) :=
        filter_of_imp _ _ hq zs
      have e4 : newKeys (acc ++ [⟨keyOf z, partnerOf z, [entryOf z]⟩]) zs
          = (newKeys acc zs).filter (fun z' => keyOf z' != keyOf z) := by
        unfold newKeys
        rw [List.filter_filter]
        congr 1
        funext z'
        rw [List.any_append]
        cases hacc : acc.any (fun g => keyOf z' == g.restaurant_id) with
        | true => simp [hacc]
        | false => simp [hacc, bne]
      have esg : extGroup zs (⟨keyOf z, partnerOf z, [entryOf z]⟩ :
            RestaurantGroup)
          = specGroup (z :: newKeys acc zs) (keyOf z) := by
        unfold extGroup specGroup
        rw [List.find?_cons_of_pos _ (by simp),
          List.filter_cons_of_pos (by simp)]
        simp [e3]
      have e5 : groupsSpec
            ((newKeys acc zs).filter (fun z' => keyOf z' != keyOf z))
          = ((firstSeen ((newKeys acc zs).map keyOf)).filter
              (fun x => x != keyOf z)).map
              (specGroup (z :: newKeys acc zs)) := by
        unfold groupsSpec
        have ekeys : ((newKeys acc zs).filter
              (fun z' => keyOf z' != keyOf z)).map keyOf
            = ((newKeys acc zs).map keyOf).filter
              (fun x => x != keyOf z) := by
          rw [List.filter_map]
          congr 1
        rw [ekeys, firstSeen_filter]
        apply List.map_congr_left
        intro x hx
        have hxne : x ≠ keyOf z := by
          have := (List.mem_filter.mp hx).2
          simpa using this
        have himp : ∀ z' : ZoneRecord, (keyOf z' == x) = true →
            (keyOf z' != keyOf z) = true := by
          intro z' h
          have hzx : keyOf z' = x := eq_of_beq h
          simp [hzx, hxne]
        unfold specGroup
        rw [find?_filter_of_imp _ _ himp, filter_of_imp _ _ himp]
        rw [List.find?_cons_of_neg _
            (by simp; exact fun hzz => hxne hzz.symm),
          List.filter_cons_of_neg
            (by simp; exact fun hzz => hxne hzz.symm)]
      rw [e1, e2, e4, e5]
      rw [show groupsSpec (z :: newKeys acc zs)
          = specGroup (z :: newKeys acc zs) (keyOf z)
            :: ((firstSeen ((newKeys acc zs).map keyOf)).filter
                (fun x => x != keyOf z)).map
                (specGroup (z :: newKeys acc zs)) from by
        simp only [groupsSpec, List.map_cons]
        rfl]
      rw [List.map_singleton, esg, List.append_assoc, List.singleton_append]

/-- C6: grouping a zone sequence by restaurant is exactly the canonical
grouping: the key is the `ID реста` attribute with sentinel `"unknown"`
when absent (`keyOf`); each group keeps the FIRST-seen zone's partner;
each group's zone list is all its key's entries in input order; groups
appear in first-seen-key order; several zones with one key collapse into
one group with a multi-element zone list. -/
theorem claim_C6 (zs : List ZoneRecord) :
    groupByRestaurant zs = groupsSpec zs := by
  have h := foldl_addZone_eq zs []
  simp only [groupByRestaurant, List.map_nil, List.nil_append] at h ⊢
  rw [h]
  unfold newKeys
  congr 1
  rw [List.filter_eq_self.mpr]
  intro z _
  simp

end RTE
